import Mathlib

/-!
Verification of the flashcard data-access layer (`flash_cards_model.py`).

The module is a thin persistence wrapper around a single SQLite database
with three tables:

  words    (_id INTEGER PRIMARY KEY, level INTEGER NOT NULL, word TEXT NOT NULL)
  sessions (date TEXT NOT NULL)                      -- implicit ROWID
  scores   (session_rowid INTEGER, word_id INTEGER, correct INTEGER)

We embed the database state as three Lean lists (kept in insertion order,
which for SQLite full-table scans is ascending ROWID order) and translate
each Python method into a pure function over that state.  Python runtime
faults that the code can raise (TypeError from operating on `None`,
ZeroDivisionError from `float(x) / 0.0`) are made explicit with `Except`.
Python's float arithmetic is modelled with exact rationals (`Rat`).
-/

/-- A row of the `words` table: `(_id, level, word)`. -/
structure Word where
  id : Nat
  level : Nat
  word : String
deriving DecidableEq, Repr

/-- A row of the `sessions` table together with its implicit SQLite ROWID.
The table itself stores only the `date` column. -/
structure SessionRow where
  rowid : Nat
  date : String
deriving DecidableEq, Repr

/-- A row of the `scores` table: `(session_rowid, word_id, correct)`. -/
structure ScoreRow where
  session_rowid : Nat
  word_id : Nat
  correct : Nat
deriving DecidableEq, Repr

/-- The whole database state.  Each list is in insertion (ROWID) order. -/
structure DBState where
  words : List Word
  sessions : List SessionRow
  scores : List ScoreRow
deriving DecidableEq, Repr

/-- A parsed record of the CSV input file, with header columns
`Number`, `Level`, `Word` (`Number` and `Level` are integers). -/
structure CsvRecord where
  number : Nat
  level : Nat
  word : String
deriving DecidableEq, Repr

/-- Python-level faults the data-access code can raise. -/
inductive PyError where
  /-- `TypeError`: e.g. `float(None)` or subscripting `None`. -/
  | typeError
  /-- `ZeroDivisionError`: `float(x) / float(0)`. -/
  | zeroDivisionError
deriving DecidableEq, Repr

/-- `DB_FILE_NAME = "flash_cards.db"` from the source module. -/
def DB_FILE_NAME : String := "flash_cards.db"

/-- The constructor state of `FlashCardsModel.__init__`: it stores the
`db_file` argument in `self._db_file` but calls
`sqlite3.connect(DB_FILE_NAME)` with the module constant. -/
structure FlashCardsModel where
  db_file : String
  connectedTo : String
deriving DecidableEq, Repr

/-- `FlashCardsModel.__init__(self, db_file)`: `self._db_file = db_file;
self._con = sqlite3.connect(DB_FILE_NAME)`. -/
def FlashCardsModel.init (db_file : String) : FlashCardsModel :=
  { db_file := db_file, connectedTo := DB_FILE_NAME }

/-- SQLite assigns a fresh ROWID one larger than the largest ROWID in use
(tables start at ROWID 1). -/
def nextRowid (ss : List SessionRow) : Nat :=
  (ss.map (·.rowid)).foldl max 0 + 1

/-- `SELECT ROWID, MAX(date) FROM sessions;` — SQLite scans the table in
ROWID order and the `max` aggregate replaces its running best only on a
strictly larger value, so the bare `ROWID` column reported is that of the
FIRST row attaining the maximal date.  On an empty table the aggregate row
holds NULL, modelled as `none`. -/
def sqlMostRecentSession (ss : List SessionRow) : Option (Nat × String) :=
  ss.foldl
    (fun acc s =>
      match acc with
      | none => some (s.rowid, s.date)
      | some (i, d) => if d < s.date then some (s.rowid, s.date) else some (i, d))
    none

/-- `FlashCardsModel.new_session`: insert a sessions row stamped `now`,
then run `SQL_MOST_RECENT_SESSION` and return column 0 of the fetched row.
Returns the queried id together with the new state. -/
def new_session (now : String) (db : DBState) : Option Nat × DBState :=
  let rid := nextRowid db.sessions
  let sessions := db.sessions ++ [⟨rid, now⟩]
  ((sqlMostRecentSession sessions).map (·.1), { db with sessions := sessions })

/-- `FlashCardsModel.get_random_word`: `SELECT _id, word FROM words ORDER BY
RANDOM() LIMIT 1` returns some row of a non-empty table (the choice `k`
stands for the randomness); on an empty table `fetchone()` yields `None`
and the subsequent `row[0]` raises `TypeError`. -/
def get_random_word (k : Nat) (db : DBState) : Except PyError (Nat × String) :=
  if h : db.words.length = 0 then
    .error .typeError
  else
    let w := db.words.get ⟨k % db.words.length, Nat.mod_lt _ (Nat.pos_of_ne_zero h)⟩
    .ok (w.id, w.word)

/-- The integer value of the `Success` IntEnum used by `score_word`:
`Success.TRUE = 1`, `Success.FALSE = 0`. -/
def successVal (success : Bool) : Nat :=
  if success then 1 else 0

/-- `FlashCardsModel.score_word(session_id, word_id, success)`:
`INSERT INTO scores VALUES(session_id, word_id, Success.TRUE if success
else Success.FALSE)` — an unconditional append, no existence checks. -/
def score_word (session_id word_id : Nat) (success : Bool) (db : DBState) : DBState :=
  { db with scores := db.scores ++ [⟨session_id, word_id, successVal success⟩] }

/-- `SELECT COUNT(*) FROM scores WHERE session_rowid={sid};` -/
def SQL_SESSION_TOTAL (sid : Nat) (scores : List ScoreRow) : Nat :=
  (scores.filter (fun sc => sc.session_rowid == sid)).length

/-- `SELECT SUM(correct) FROM scores WHERE session_rowid={sid};` — SQL
`SUM` over zero rows is NULL (`none`), otherwise the sum. -/
def SQL_SCORE_SESSION (sid : Nat) (scores : List ScoreRow) : Option Nat :=
  let rows := scores.filter (fun sc => sc.session_rowid == sid)
  if rows.isEmpty then none else some (rows.map (·.correct)).sum

/-- `FlashCardsModel.get_session_score(session_id)`: fetch the COUNT, fetch
the SUM, return `float(correct) / float(count)`.  When SUM is NULL the
fetched `correct` is Python `None` and `float(None)` raises `TypeError`
(before the division is attempted); a zero denominator would raise
`ZeroDivisionError`.  Float division is modelled exactly over `Rat`. -/
def get_session_score (session_id : Nat) (db : DBState) : Except PyError Rat :=
  let count := SQL_SESSION_TOTAL session_id db.scores
  match SQL_SCORE_SESSION session_id db.scores with
  | none => .error .typeError
  | some correct =>
      if count = 0 then .error .zeroDivisionError
      else .ok ((correct : Rat) / (count : Rat))

/-- `SQL_INCORRECT_WORDS`: `SELECT scores.word_id, words.word FROM scores,
words WHERE words._id = scores.word_id AND scores.session_rowid={sid} AND
scores.correct=0;` — a plain join without deduplication, scanning `scores`
in the outer loop. -/
def get_incorrect_words (session_id : Nat) (db : DBState) : List (Nat × String) :=
  db.scores.flatMap fun sc =>
    db.words.filterMap fun w =>
      if w.id = sc.word_id ∧ sc.session_rowid = session_id ∧ sc.correct = 0 then
        some (sc.word_id, w.word)
      else none

/-- `SELECT _id,level,word FROM words WHERE _id={i};` followed by
`fetchone()`: the first matching row, if any. -/
def findWordById (i : Nat) (ws : List Word) : Option Word :=
  ws.find? (fun w => w.id == i)

/-- `UPDATE words SET word="{t}" WHERE _id={i};` -/
def sqlUpdateWord (t : String) (i : Nat) (ws : List Word) : List Word :=
  ws.map (fun w => if w.id = i then { w with word := t } else w)

/-- `SQL_INSERT_WORD`: `INSERT INTO words (_id, level, word)
VALUES({Number},{Level},"{Word}");` -/
def sqlInsertWord (r : CsvRecord) (ws : List Word) : List Word :=
  ws ++ [⟨r.number, r.level, r.word⟩]

/-- The running state of `update_word_list`: the words table plus the
`checked` / `updated` / `added` counters. -/
structure SyncState where
  words : List Word
  checked : Nat
  updated : Nat
  added : Nat
deriving DecidableEq, Repr

/-- The body of the per-record loop of `update_word_list`: bump `checked`,
look the record up by id; on a text mismatch update the stored text, on a
miss insert the record, otherwise do nothing. -/
def syncStep (s : SyncState) (r : CsvRecord) : SyncState :=
  match findWordById r.number s.words with
  | some row =>
      if row.word ≠ r.word then
        { s with checked := s.checked + 1,
                 words := sqlUpdateWord r.word r.number s.words,
                 updated := s.updated + 1 }
      else
        { s with checked := s.checked + 1 }
  | none =>
      { s with checked := s.checked + 1,
               words := sqlInsertWord r s.words,
               added := s.added + 1 }

/-- A source record already reconciled with the words table: the lookup by
its id finds a row whose stored text equals the source text (the skip
branch of `update_word_list`). -/
def recordSynced (ws : List Word) (r : CsvRecord) : Prop :=
  ∃ row, findWordById r.number ws = some row ∧ row.word = r.word

/-- `update_word_list()`: iterate the CSV records over the current words
table with all three counters starting at 0. -/
def update_word_list (source : List CsvRecord) (ws : List Word) : SyncState :=
  source.foldl syncStep ⟨ws, 0, 0, 0⟩

/-- `erase_and_recreate_tables()`: drop and recreate the three tables
(discarding any prior state), then insert every CSV record in order. -/
def erase_and_recreate_tables (source : List CsvRecord) (_db : DBState) : DBState :=
  { words := source.foldl (fun ws r => sqlInsertWord r ws) []
    sessions := []
    scores := [] }

/-! ## Theorems -/

/-- C10: the `FlashCardsModel` constructor ignores its `db_file` argument
when opening the store — every instance connects to the fixed file
`DB_FILE_NAME` (`"flash_cards.db"`), so two instances constructed with
different `db_file` arguments connect to the same store. -/
theorem init_ignores_db_file (s t : String) :
    (FlashCardsModel.init s).connectedTo = DB_FILE_NAME ∧
    (FlashCardsModel.init s).connectedTo = (FlashCardsModel.init t).connectedTo := by
  constructor <;> rfl

/-- C9: `score_word(session_id, word_id, success)` appends exactly one new
score row `(session_id, word_id, correct)` with `correct = 1` iff `success`,
for arbitrary ids (no validation that the session or word exists), leaving
the words and sessions tables and every pre-existing score row unchanged. -/
theorem score_word_spec (db : DBState) (sid wid : Nat) (success : Bool) :
    (score_word sid wid success db).words = db.words ∧
    (score_word sid wid success db).sessions = db.sessions ∧
    (score_word sid wid success db).scores.length = db.scores.length + 1 ∧
    (score_word sid wid success db).scores.take db.scores.length = db.scores ∧
    (score_word sid wid success db).scores.getLast? =
      some ⟨sid, wid, if success then 1 else 0⟩ := by
  refine ⟨rfl, rfl, ?_, ?_, ?_⟩
  · simp [score_word]
  · simp [score_word]
  · simp [score_word, successVal]

/-- C3 (failing input): starting from an empty database, two consecutive
`new_session()` calls whose `datetime.now()` timestamps render to the same
string both return session id 1 — `SELECT ROWID,MAX(date)` reports the
first row attaining the maximal date, so the second call returns the FIRST
session's rowid instead of the one it just inserted, and the two results
are neither distinct nor strictly increasing. -/
theorem new_session_duplicate_timestamp :
    (new_session "2022-01-01T00:00:00" ⟨[], [], []⟩).1 = some 1 ∧
    (new_session "2022-01-01T00:00:00"
      (new_session "2022-01-01T00:00:00" ⟨[], [], []⟩).2).1 = some 1 := by
  have h : ¬ ("2022-01-01T00:00:00" < "2022-01-01T00:00:00") := lt_irrefl _
  refine ⟨rfl, ?_⟩
  simp [new_session, sqlMostRecentSession, nextRowid, h]

/-- C4: when the words table is empty, `get_random_word()` fails for every
random choice `k` — SQLite returns no row, `fetchone()` yields `None`, and
`row[0]` raises the fault that realizes the spec's `EmptyCatalog`
condition; no `(id, word)` pair is ever returned. -/
theorem get_random_word_empty_catalog (db : DBState) (h : db.words = []) (k : Nat) :
    get_random_word k db = .error .typeError := by
  simp [get_random_word, h]

/-- Witness for C4 at the concrete empty database. -/
theorem get_random_word_empty_catalog_witness :
    get_random_word 0 ⟨[], [], []⟩ = .error .typeError :=
  get_random_word_empty_catalog ⟨[], [], []⟩ rfl 0

/-- Over score rows whose `correct` column is 0 or 1, the SQL `SUM(correct)`
equals the number of rows with `correct = 1`. -/
theorem sum_correct_eq_countP (l : List ScoreRow)
    (h : ∀ sc ∈ l, sc.correct = 0 ∨ sc.correct = 1) :
    (l.map (·.correct)).sum = l.countP (fun sc => sc.correct == 1) := by
  induction l with
  | nil => simp
  | cons a t ih =>
      have ha := h a (by simp)
      have ht : ∀ sc ∈ t, sc.correct = 0 ∨ sc.correct = 1 :=
        fun sc hsc => h sc (by simp [hsc])
      rcases ha with h0 | h1
      · simp [List.countP_cons, ih ht, h0]
      · simp [List.countP_cons, ih ht, h1]
        try omega

/-- C1: on a session with `k > 0` recorded score rows of which `c` have
`correct = 1`, `get_session_score` returns exactly the ratio `c / k`
(float division modelled exactly over `Rat`), and that ratio lies in
`[0, 1]`. -/
theorem get_session_score_ratio_exact (db : DBState) (sid k c : Nat)
    (hall : ∀ sc ∈ db.scores, sc.correct = 0 ∨ sc.correct = 1)
    (hk : SQL_SESSION_TOTAL sid db.scores = k)
    (hpos : 0 < k)
    (hc : (db.scores.filter (fun sc => sc.session_rowid == sid)).countP
        (fun sc => sc.correct == 1) = c) :
    get_session_score sid db = .ok ((c : Rat) / (k : Rat)) ∧
    0 ≤ (c : Rat) / (k : Rat) ∧ (c : Rat) / (k : Rat) ≤ 1 := by
  set rows := db.scores.filter (fun sc => sc.session_rowid == sid) with hrows
  have hlen : rows.length = k := hk
  have hne : rows.isEmpty = false := by
    cases hrowsE : rows with
    | nil => rw [hrowsE] at hlen; simp at hlen; omega
    | cons a t => simp [hrowsE]
  have hallrows : ∀ sc ∈ rows, sc.correct = 0 ∨ sc.correct = 1 :=
    fun sc hsc => hall sc (List.mem_of_mem_filter hsc)
  have hsum : (rows.map (·.correct)).sum = c := by
    rw [sum_correct_eq_countP rows hallrows, hc]
  have hcle : c ≤ k := by
    rw [← hc, ← hlen]
    exact List.countP_le_length _
  have hscore : SQL_SCORE_SESSION sid db.scores = some c := by
    simp only [SQL_SCORE_SESSION, ← hrows, hne, hsum]
    simp
  refine ⟨?_, ?_, ?_⟩
  · simp only [get_session_score, hscore, SQL_SESSION_TOTAL, ← hrows, hlen]
    have : ¬ k = 0 := by omega
    simp [this]
  · positivity
  · rw [div_le_one (by exact_mod_cast hpos)]
    exact_mod_cast hcle

/-- Witness for C1: a session with 2 attempts, 1 correct, scores 1/2. -/
theorem get_session_score_ratio_exact_witness :
    get_session_score 1 ⟨[], [], [⟨1, 10, 1⟩, ⟨1, 11, 0⟩]⟩ =
      .ok ((1 : Rat) / (2 : Rat)) ∧
    0 ≤ (1 : Rat) / (2 : Rat) ∧ (1 : Rat) / (2 : Rat) ≤ 1 :=
  get_session_score_ratio_exact ⟨[], [], [⟨1, 10, 1⟩, ⟨1, 11, 0⟩]⟩ 1 2 1
    (by decide) (by decide) (by decide) (by decide)

/-- C2 (amended): on a session with zero recorded score rows,
`get_session_score` never returns a value: `SUM(correct)` is NULL, the
fetched `correct` is Python `None`, and `float(None)` raises `TypeError`
before any division is attempted. -/
theorem get_session_score_no_attempts (db : DBState) (sid : Nat)
    (h : SQL_SESSION_TOTAL sid db.scores = 0) :
    get_session_score sid db = .error .typeError := by
  have hempty : (db.scores.filter (fun sc => sc.session_rowid == sid)).isEmpty = true := by
    simpa [SQL_SESSION_TOTAL, List.isEmpty_iff_length_eq_zero] using h
  simp [get_session_score, SQL_SCORE_SESSION, hempty]

/-- Witness for C2's amended theorem at the concrete empty database. -/
theorem get_session_score_no_attempts_witness :
    get_session_score 1 ⟨[], [], []⟩ = .error .typeError :=
  get_session_score_no_attempts ⟨[], [], []⟩ 1 rfl

/-- C2 (counterexample to the claim as stated): on a session with zero
attempts the failure is NOT a division fault — the result differs from
`ZeroDivisionError` (it is the `TypeError` raised by `float(None)`). -/
theorem get_session_score_no_attempts_not_div_fault :
    ¬ (get_session_score 1 ⟨[], [], []⟩ = .error .zeroDivisionError) := by
  simp [get_session_score, SQL_SCORE_SESSION, SQL_SESSION_TOTAL]

/-- C6: the per-record synchronization behavior of `update_word_list` on a
single source record: if a stored word with the record's id exists and its
text differs, exactly that text is rewritten (level and all other rows
untouched, as the map form shows) and `updated` is incremented by exactly
1; if the text matches, nothing changes; if no stored word has the id, the
record is inserted and `added` is incremented by exactly 1. -/
theorem sync_single_record_cases (ws : List Word) (r : CsvRecord) :
    (∀ row, findWordById r.number ws = some row →
      (row.word ≠ r.word →
        (update_word_list [r] ws).words =
          ws.map (fun w => if w.id = r.number then { w with word := r.word } else w) ∧
        (update_word_list [r] ws).updated = 1 ∧
        (update_word_list [r] ws).added = 0) ∧
      (row.word = r.word →
        (update_word_list [r] ws).words = ws ∧
        (update_word_list [r] ws).updated = 0 ∧
        (update_word_list [r] ws).added = 0)) ∧
    (findWordById r.number ws = none →
      (update_word_list [r] ws).words = ws ++ [⟨r.number, r.level, r.word⟩] ∧
      (update_word_list [r] ws).added = 1 ∧
      (update_word_list [r] ws).updated = 0) := by
  refine ⟨fun row hfind => ⟨fun hne => ?_, fun heq => ?_⟩, fun hnone => ?_⟩
  · simp [update_word_list, syncStep, hfind, hne, sqlUpdateWord]
  · simp [update_word_list, syncStep, hfind, heq]
  · simp [update_word_list, syncStep, hnone, sqlInsertWord]

/-- Witness for C6 at the spec's example: stored word `(7, "OLD")`, source
record `(Number=7, Word="NEW")`. -/
theorem sync_single_record_cases_witness :
    (update_word_list [⟨7, 1, "NEW"⟩] [⟨7, 1, "OLD"⟩]).words =
      [Word.mk 7 1 "OLD"].map
        (fun w => if w.id = (CsvRecord.mk 7 1 "NEW").number
          then { w with word := (CsvRecord.mk 7 1 "NEW").word } else w) ∧
    (update_word_list [⟨7, 1, "NEW"⟩] [⟨7, 1, "OLD"⟩]).updated = 1 ∧
    (update_word_list [⟨7, 1, "NEW"⟩] [⟨7, 1, "OLD"⟩]).added = 0 :=
  ((sync_single_record_cases [⟨7, 1, "OLD"⟩] ⟨7, 1, "NEW"⟩).1
    ⟨7, 1, "OLD"⟩ (by decide)).1 (by decide)

/-- Bulk-loading records one by one onto an accumulator appends their
translations in order. -/
theorem foldl_insert_eq_append_map (source : List CsvRecord) :
    ∀ acc : List Word,
      source.foldl (fun ws r => sqlInsertWord r ws) acc =
        acc ++ source.map (fun r => ⟨r.number, r.level, r.word⟩) := by
  induction source with
  | nil => intro acc; simp
  | cons r rest ih =>
      intro acc
      rw [List.foldl_cons, ih]
      simp [sqlInsertWord]

/-- C7: after a full-replace load the sessions and scores tables are empty
— all prior session and score history is discarded — and the words table
holds exactly the source records with their supplied id, level and text,
in source order. -/
theorem erase_and_recreate_full_replace (source : List CsvRecord) (db : DBState)
    (_hids : (source.map (·.number)).Nodup) :
    (erase_and_recreate_tables source db).sessions = [] ∧
    (erase_and_recreate_tables source db).scores = [] ∧
    (erase_and_recreate_tables source db).words =
      source.map (fun r => ⟨r.number, r.level, r.word⟩) := by
  refine ⟨rfl, rfl, ?_⟩
  simpa [erase_and_recreate_tables] using foldl_insert_eq_append_map source []

/-- Witness for C7: a two-record source loaded over a database holding
prior session and score history. -/
theorem erase_and_recreate_full_replace_witness :
    (erase_and_recreate_tables [⟨1, 1, "a"⟩, ⟨2, 3, "b"⟩]
      ⟨[⟨9, 9, "junk"⟩], [⟨1, "2022"⟩], [⟨1, 9, 1⟩]⟩).sessions = [] ∧
    (erase_and_recreate_tables [⟨1, 1, "a"⟩, ⟨2, 3, "b"⟩]
      ⟨[⟨9, 9, "junk"⟩], [⟨1, "2022"⟩], [⟨1, 9, 1⟩]⟩).scores = [] ∧
    (erase_and_recreate_tables [⟨1, 1, "a"⟩, ⟨2, 3, "b"⟩]
      ⟨[⟨9, 9, "junk"⟩], [⟨1, "2022"⟩], [⟨1, 9, 1⟩]⟩).words =
      [CsvRecord.mk 1 1 "a", CsvRecord.mk 2 3 "b"].map
        (fun r => ⟨r.number, r.level, r.word⟩) :=
  erase_and_recreate_full_replace [⟨1, 1, "a"⟩, ⟨2, 3, "b"⟩]
    ⟨[⟨9, 9, "junk"⟩], [⟨1, "2022"⟩], [⟨1, 9, 1⟩]⟩ (by decide)

/-- C8: every `(word_id, text)` pair returned by `get_incorrect_words`
comes from a score row of that session with `correct = 0` joined to a word
row with that id; consequently a word scored correct on every attempt of
the session never appears in the result. -/
theorem get_incorrect_words_sound (sid : Nat) (db : DBState) :
    (∀ p ∈ get_incorrect_words sid db,
      (∃ sc ∈ db.scores, sc.session_rowid = sid ∧ sc.correct = 0 ∧ sc.word_id = p.1) ∧
      (∃ w ∈ db.words, w.id = p.1 ∧ w.word = p.2)) ∧
    (∀ i, (∀ sc ∈ db.scores, sc.session_rowid = sid → sc.word_id = i → sc.correct ≠ 0) →
      ∀ p ∈ get_incorrect_words sid db, p.1 ≠ i) := by
  have main : ∀ p ∈ get_incorrect_words sid db,
      (∃ sc ∈ db.scores, sc.session_rowid = sid ∧ sc.correct = 0 ∧ sc.word_id = p.1) ∧
      (∃ w ∈ db.words, w.id = p.1 ∧ w.word = p.2) := by
    intro p hp
    rw [get_incorrect_words, List.mem_flatMap] at hp
    obtain ⟨sc, hsc, hmem⟩ := hp
    rw [List.mem_filterMap] at hmem
    obtain ⟨w, hw, heq⟩ := hmem
    by_cases hcond : w.id = sc.word_id ∧ sc.session_rowid = sid ∧ sc.correct = 0
    · rw [if_pos hcond] at heq
      obtain ⟨h1, h2, h3⟩ := hcond
      cases heq
      exact ⟨⟨sc, hsc, h2, h3, rfl⟩, ⟨w, hw, h1, rfl⟩⟩
    · rw [if_neg hcond] at heq
      exact absurd heq (by simp)
  refine ⟨main, ?_⟩
  intro i hi p hp hpi
  obtain ⟨⟨sc, hsc, hsess, hcorr, hwid⟩, -⟩ := main p hp
  exact hi sc hsc hsess (hwid.trans hpi) hcorr

/-- Witness for C8: a one-word catalog and one incorrect attempt, whose
join output pair is traced back to its score and word rows. -/
theorem get_incorrect_words_sound_witness :
    (∃ sc ∈ (DBState.mk [⟨5, 1, "cat"⟩] [] [⟨1, 5, 0⟩]).scores,
      sc.session_rowid = 1 ∧ sc.correct = 0 ∧ sc.word_id = (5, "cat").1) ∧
    (∃ w ∈ (DBState.mk [⟨5, 1, "cat"⟩] [] [⟨1, 5, 0⟩]).words,
      w.id = (5, "cat").1 ∧ w.word = (5, "cat").2) :=
  (get_incorrect_words_sound 1 ⟨[⟨5, 1, "cat"⟩], [], [⟨1, 5, 0⟩]⟩).1
    (5, "cat") (by decide)

/-- Lookup on the empty table. -/
theorem findWordById_nil (i : Nat) : findWordById i [] = none := rfl

/-- Lookup steps over a cons cell by comparing the head's id. -/
theorem findWordById_cons (i : Nat) (a : Word) (l : List Word) :
    findWordById i (a :: l) = if a.id = i then some a else findWordById i l := by
  by_cases h : a.id = i
  · rw [findWordById, List.find?_cons_of_pos _ (by simp [h]), if_pos h]
  · rw [findWordById, List.find?_cons_of_neg _ (by simp [h]), if_neg h]
    rfl

/-- The SQL UPDATE steps over a cons cell. -/
theorem sqlUpdateWord_cons (t : String) (i : Nat) (a : Word) (l : List Word) :
    sqlUpdateWord t i (a :: l) =
      (if a.id = i then { a with word := t } else a) :: sqlUpdateWord t i l := by
  simp only [sqlUpdateWord, List.map_cons]

/-- Updating the text of id `i` rewrites exactly the row the lookup for
`i` finds. -/
theorem findWordById_sqlUpdateWord_self (t : String) (i : Nat) (ws : List Word) :
    findWordById i (sqlUpdateWord t i ws) =
      (findWordById i ws).map (fun w => { w with word := t }) := by
  induction ws with
  | nil => rfl
  | cons a l ih =>
      by_cases h : a.id = i <;>
        simp [sqlUpdateWord_cons, findWordById_cons, h, ih]

/-- Updating the text of id `j` leaves lookups for a different id `i`
untouched. -/
theorem findWordById_sqlUpdateWord_ne (t : String) (i j : Nat) (hne : i ≠ j)
    (ws : List Word) :
    findWordById i (sqlUpdateWord t j ws) = findWordById i ws := by
  induction ws with
  | nil => rfl
  | cons a l ih =>
      have hne' : ¬ j = i := fun hh => hne hh.symm
      have hne'' : ¬ i = j := hne
      by_cases hj : a.id = j
      · have hi : ¬ a.id = i := by omega
        simp [sqlUpdateWord_cons, findWordById_cons, hj, hi, ih, hne', hne'']
      · by_cases hi : a.id = i <;>
          simp [sqlUpdateWord_cons, findWordById_cons, hj, hi, ih, hne', hne'']

/-- A successful lookup survives appending further rows. -/
theorem findWordById_append_left (i : Nat) (ws l : List Word) (w : Word)
    (h : findWordById i ws = some w) :
    findWordById i (ws ++ l) = some w := by
  induction ws with
  | nil => exact absurd h (by simp [findWordById_nil])
  | cons a t ih =>
      rw [findWordById_cons] at h
      rw [List.cons_append, findWordById_cons]
      by_cases ha : a.id = i
      · rw [if_pos ha] at h
        rw [if_pos ha]
        exact h
      · rw [if_neg ha] at h
        rw [if_neg ha]
        exact ih h

/-- After inserting a row with an id absent from the table, the lookup for
that id finds exactly the inserted row. -/
theorem findWordById_append_single_none (i : Nat) (ws : List Word) (w : Word)
    (h : findWordById i ws = none) (hw : w.id = i) :
    findWordById i (ws ++ [w]) = some w := by
  induction ws with
  | nil => simp [findWordById_cons, findWordById_nil, hw]
  | cons a t ih =>
      rw [findWordById_cons] at h
      rw [List.cons_append, findWordById_cons]
      by_cases ha : a.id = i
      · rw [if_pos ha] at h
        exact absurd h (by simp)
      · rw [if_neg ha] at h
        rw [if_neg ha]
        exact ih h

/-- One pass of the sync loop body reconciles its own record. -/
theorem syncStep_establishes (s : SyncState) (r : CsvRecord) :
    recordSynced (syncStep s r).words r := by
  rcases hfind : findWordById r.number s.words with _ | row
  · refine ⟨⟨r.number, r.level, r.word⟩, ?_, rfl⟩
    simp only [syncStep, hfind]
    exact findWordById_append_single_none _ _ _ hfind rfl
  · by_cases hw : row.word = r.word
    · refine ⟨row, ?_, hw⟩
      simp only [syncStep, hfind, hw]
      simpa using hfind
    · refine ⟨{ row with word := r.word }, ?_, rfl⟩
      simp only [syncStep, hfind, if_pos hw]
      rw [findWordById_sqlUpdateWord_self, hfind]
      rfl

/-- The sync loop body for one record does not unreconcile a record with a
different id. -/
theorem syncStep_preserves (s : SyncState) (q r : CsvRecord)
    (hne : r.number ≠ q.number) (h : recordSynced s.words r) :
    recordSynced (syncStep s q).words r := by
  obtain ⟨row, hfind, hword⟩ := h
  rcases hfind' : findWordById q.number s.words with _ | row'
  · refine ⟨row, ?_, hword⟩
    simp only [syncStep, hfind', sqlInsertWord]
    exact findWordById_append_left _ _ _ _ hfind
  · by_cases hw : row'.word = q.word
    · refine ⟨row, ?_, hword⟩
      simp only [syncStep, hfind', hw]
      simpa using hfind
    · refine ⟨row, ?_, hword⟩
      simp only [syncStep, hfind', if_pos hw]
      rw [findWordById_sqlUpdateWord_ne _ _ _ hne]
      exact hfind

/-- Folding the sync loop over records none of which carries id
`r.number` keeps `r` reconciled. -/
theorem foldl_syncStep_preserves (rest : List CsvRecord) :
    ∀ (s : SyncState) (r : CsvRecord), r.number ∉ rest.map (·.number) →
      recordSynced s.words r → recordSynced (rest.foldl syncStep s).words r := by
  induction rest with
  | nil => intro s r _ h; exact h
  | cons q rest ih =>
      intro s r hnot h
      simp only [List.map_cons, List.mem_cons, not_or] at hnot
      rw [List.foldl_cons]
      exact ih (syncStep s q) r hnot.2 (syncStep_preserves s q r hnot.1 h)

/-- After one full pass of the sync loop over a source with pairwise
distinct ids, every source record is reconciled with the words table. -/
theorem foldl_syncStep_post (source : List CsvRecord) :
    ∀ s : SyncState, (source.map (·.number)).Nodup →
      ∀ r ∈ source, recordSynced (source.foldl syncStep s).words r := by
  induction source with
  | nil => intro s _ r hr; cases hr
  | cons q rest ih =>
      intro s hnd r hr
      rw [List.map_cons, List.nodup_cons] at hnd
      rw [List.foldl_cons]
      rcases List.mem_cons.mp hr with rfl | hrrest
      · exact foldl_syncStep_preserves rest (syncStep s r) r hnd.1
          (syncStep_establishes s r)
      · exact ih (syncStep s q) hnd.2 r hrrest

/-- A sync pass over a source whose every record is already reconciled
only counts: the words table and the `updated` / `added` counters are
untouched and `checked` grows by the number of records. -/
theorem foldl_syncStep_all_synced (source : List CsvRecord) :
    ∀ s : SyncState, (∀ r ∈ source, recordSynced s.words r) →
      source.foldl syncStep s =
        { words := s.words, checked := s.checked + source.length,
          updated := s.updated, added := s.added } := by
  induction source with
  | nil => intro s _; simp
  | cons r rest ih =>
      intro s h
      obtain ⟨row, hfind, hword⟩ := h r (by simp)
      have hstep : syncStep s r = { s with checked := s.checked + 1 } := by
        simp [syncStep, hfind, hword]
      rw [List.foldl_cons, hstep,
        ih { s with checked := s.checked + 1 } (fun q hq => h q (by simp [hq]))]
      simp [SyncState.mk.injEq]
      omega

/-- C5: synchronization is idempotent — re-running `update_word_list` over
an unchanged source (whose ids are pairwise distinct, the catalog's id
invariant) reports `updated = 0` and `added = 0` and leaves the words
table exactly as the first run left it. -/
theorem update_word_list_idempotent (source : List CsvRecord) (ws : List Word)
    (hids : (source.map (·.number)).Nodup) :
    update_word_list source (update_word_list source ws).words =
      { words := (update_word_list source ws).words,
        checked := source.length, updated := 0, added := 0 } := by
  have hsynced : ∀ r ∈ source, recordSynced (update_word_list source ws).words r :=
    foldl_syncStep_post source ⟨ws, 0, 0, 0⟩ hids
  simpa [update_word_list] using
    foldl_syncStep_all_synced source
      ⟨(update_word_list source ws).words, 0, 0, 0⟩ hsynced

/-- Witness for C5: a two-record source run twice from a table that
already holds a stale text for id 7. -/
theorem update_word_list_idempotent_witness :
    update_word_list [⟨7, 1, "NEW"⟩, ⟨8, 2, "x"⟩]
        (update_word_list [⟨7, 1, "NEW"⟩, ⟨8, 2, "x"⟩] [⟨7, 1, "OLD"⟩]).words =
      { words := (update_word_list [⟨7, 1, "NEW"⟩, ⟨8, 2, "x"⟩] [⟨7, 1, "OLD"⟩]).words,
        checked := 2, updated := 0, added := 0 } :=
  update_word_list_idempotent [⟨7, 1, "NEW"⟩, ⟨8, 2, "x"⟩] [⟨7, 1, "OLD"⟩] (by decide)
